import Mathlib

/-!
Verification of the reviews subsystem of `reviews_api.py` (captcha
issuance/verification, client identity binding, review create/list/delete)
as a shallow embedding.  The SQLite store is modelled as an explicit state:
a list of review rows, a list of captcha rows, and the next AUTOINCREMENT
id.  Each HTTP handler becomes a pure function from inputs and state to a
result together with the successor state; randomness (minted captcha ids,
client ids, delete tokens) and the clock are passed as explicit parameters.
Strings are modelled as Lean `String`; Python `str.strip()` is modelled by
`pyStrip` (leading/trailing whitespace removal over the character list).
-/

namespace Reviews

/-- A row of the `reviews` table: `id` is assigned by the store
(AUTOINCREMENT), the rest come from `create_review`. -/
structure Review where
  id : Nat
  name : String
  text : String
  ts : Nat
  client_id : String
  delete_token : String
deriving DecidableEq, Repr

/-- A row of the `captchas` table. -/
structure Captcha where
  cid : String
  answer : String
  expires_at : Nat
deriving DecidableEq, Repr

/-- The persistent store: both tables plus the AUTOINCREMENT counter for
`reviews.id`.  `reviews` is kept in insertion order. -/
structure Store where
  reviews : List Review
  captchas : List Captcha
  next_id : Nat
deriving DecidableEq, Repr

/-- The empty store right after `init_db` on a fresh database. -/
def Store.init : Store := ⟨[], [], 1⟩

/-- The JSON object `{id,name,text,ts}` exposed by `list_reviews`. -/
structure Entry where
  id : Nat
  name : String
  text : String
  ts : Nat
deriving DecidableEq, Repr

/-- The JSON body of `POST /api/reviews`: each field may be absent. -/
structure Payload where
  name : Option String
  text : Option String
  captcha_id : Option String
  captcha_answer : Option String
deriving DecidableEq, Repr

/-- Outcome of `create_review`: `created` carries the 201 response body
`{id, delete_token, name, text, ts}`; the other constructors are the four
error responses (400 name required, 400 text required, 403 name conflict,
400 captcha failed). -/
inductive CreateResult where
  | created (id : Nat) (delete_token : String) (name : String) (text : String) (ts : Nat)
  | validationName
  | validationText
  | nameConflict
  | captchaFailed
deriving DecidableEq, Repr

/-- Outcome of `delete_review`: 200 ok, 404 not found, 403 unauthorized. -/
inductive DeleteResult where
  | ok
  | notFound
  | unauthorized
deriving DecidableEq, Repr

/-- Python's notion of whitespace for `str.strip()`: space, tab, newline,
carriage return, vertical tab, form feed. -/
def pyIsSpace (c : Char) : Bool :=
  c = ' ' || c = '\t' || c = '\n' || c = '\r' || c = '\x0b' || c = '\x0c'

/-- Python `s.strip()`: remove leading and trailing whitespace.  Defined
over the character list so that it evaluates inside the kernel. -/
def pyStrip (s : String) : String :=
  ⟨((s.data.dropWhile pyIsSpace).reverse.dropWhile pyIsSpace).reverse⟩

/-- Python `s[:n]`: the first `n` characters of a string. -/
def strTake (s : String) (n : Nat) : String :=
  ⟨s.data.take n⟩

/-- Python `x or ''` for an optional JSON string field. -/
def orEmpty : Option String → String
  | none => ""
  | some s => s

/-- Python `str(x)` for an optional string (`str(None)` is the literal
string `"None"`, which is how a missing `captcha_answer` reaches the
comparison in `verify_captcha`). -/
def pyStr : Option String → String
  | none => "None"
  | some s => s

/-- Digit run of a Python integer literal after the first digit: single
underscores are allowed between digits, nowhere else. -/
def pyIntDigits : Nat → List Char → Option Nat
  | acc, [] => some acc
  | acc, '_' :: c :: cs =>
      if c.isDigit then pyIntDigits (acc * 10 + (c.toNat - 48)) cs else none
  | _, ['_'] => none
  | acc, c :: cs =>
      if c.isDigit then pyIntDigits (acc * 10 + (c.toNat - 48)) cs else none

/-- Unsigned part of Python `int(str)`: at least one digit. -/
def pyIntStart : List Char → Option Nat
  | [] => none
  | c :: cs => if c.isDigit then pyIntDigits (c.toNat - 48) cs else none

/-- Python `int(s)` on a string: surrounding whitespace stripped, optional
sign, decimal digits (with underscore separators); `none` models the
`ValueError` raised on anything else. -/
def pyInt (s : String) : Option Int :=
  match (pyStrip s).data with
  | '+' :: rest => (pyIntStart rest).map Int.ofNat
  | '-' :: rest => (pyIntStart rest).map (fun n => -(n : Int))
  | rest => (pyIntStart rest).map Int.ofNat

/-- The captcha time-to-live, `CAPTCHA_TTL = 300` seconds. -/
def CAPTCHA_TTL : Nat := 300

/-- `SELECT answer, expires_at FROM captchas WHERE cid=?` (first match). -/
def findCaptcha (cid : String) (st : Store) : Option Captcha :=
  st.captchas.find? (fun c => c.cid == cid)

/-- `DELETE FROM captchas WHERE cid=?`. -/
def deleteCaptcha (cid : String) (st : Store) : Store :=
  { st with captchas := st.captchas.filter (fun c => c.cid ≠ cid) }

/-- `GET /api/reviews/captcha`: the handler picks `a = randbelow(8)+2`,
`b = randbelow(8)+1`, stores `(cid, str(a+b), now + CAPTCHA_TTL)` via
`INSERT OR REPLACE`, and returns `{cid, question}`.  The random values
`a`, `b`, `cid` and the clock `now` are explicit parameters. -/
def get_captcha (cid : String) (a b : Nat) (now : Nat) (st : Store) :
    (String × String) × Store :=
  ((cid, toString a ++ " + " ++ toString b ++ " = ?"),
   { st with captchas :=
      ⟨cid, toString (a + b), now + CAPTCHA_TTL⟩ ::
        st.captchas.filter (fun c => c.cid ≠ cid) })

/-- `verify_captcha(db, cid, answer)`: false on falsy `cid` (absent or
empty), false on no row; if `now` is strictly past `expires_at` the row is
deleted and false returned; otherwise `str(answer).strip()` is compared to
`str(row['answer']).strip()` — on mismatch false without deleting, on
match the row is deleted (consumed) and true returned. -/
def verify_captcha (now : Nat) (cid : Option String) (answer : Option String)
    (st : Store) : Bool × Store :=
  match cid with
  | none => (false, st)
  | some c =>
    if c = "" then (false, st)
    else
      match findCaptcha c st with
      | none => (false, st)
      | some row =>
        if row.expires_at < now then (false, deleteCaptcha c st)
        else if pyStrip (pyStr answer) ≠ pyStrip row.answer then (false, st)
        else (true, deleteCaptcha c st)

/-- Ordering used by `ORDER BY ts DESC`. -/
def tsGe (a b : Review) : Prop := b.ts ≤ a.ts

instance : DecidableRel tsGe := fun a b => inferInstanceAs (Decidable (b.ts ≤ a.ts))

instance : IsTotal Review tsGe :=
  ⟨fun a b => (Nat.le_total b.ts a.ts).elim Or.inl Or.inr⟩

instance : IsTrans Review tsGe :=
  ⟨fun _ _ _ hab hbc => Nat.le_trans hbc hab⟩

/-- `ORDER BY ts DESC` over a bag of review rows. -/
def sortByTsDesc (l : List Review) : List Review :=
  List.insertionSort tsGe l

/-- `SELECT name FROM reviews WHERE client_id = ? ORDER BY ts DESC LIMIT 1`
(the whole row is kept in the model; only `name` is read). -/
def findLatestByClient (cid : String) (st : Store) : Option Review :=
  (sortByTsDesc (st.reviews.filter (fun r => r.client_id == cid))).head?

/-- The `limit` applied by `list_reviews`:
`int(request.args.get('limit', '200')[:4]) if request.args.get('limit') else 200`.
An absent or empty parameter is falsy and yields 200; otherwise only the
first 4 characters are parsed, and `none` models the uncaught
`ValueError` (HTTP 500) when they do not parse. -/
def computeLimit (limitParam : Option String) : Option Int :=
  match limitParam with
  | none => some 200
  | some s => if s = "" then some 200 else pyInt (strTake s 4)

/-- `SELECT id,name,text,ts FROM reviews ORDER BY ts DESC LIMIT ?` with the
row-to-JSON projection.  SQLite treats a negative LIMIT as "no limit". -/
def listWithLimit (lim : Int) (st : Store) : List Entry :=
  let sorted := sortByTsDesc st.reviews
  let taken := if lim < 0 then sorted else sorted.take lim.toNat
  taken.map (fun r => ⟨r.id, r.name, r.text, r.ts⟩)

/-- `GET /api/reviews`: compute the limit from the query parameter, then
list; `none` models the request failing with an uncaught parse error. -/
def list_reviews (limitParam : Option String) (st : Store) :
    Option (List Entry) :=
  (computeLimit limitParam).map (fun lim => listWithLimit lim st)

/-- Client identification in `create_review`: the `aj_client_id` cookie if
present and non-empty, else a freshly minted token (explicit parameter). -/
def resolveClient (cookie : Option String) (minted : String) : String :=
  match cookie with
  | none => minted
  | some c => if c = "" then minted else c

/-- `INSERT INTO reviews(name,text,ts,client_id,delete_token)` plus the 201
response body built from `lastrowid` and the inserted fields. -/
def insertReview (name text : String) (ts : Nat) (client_id delete_token : String)
    (st : Store) : CreateResult × Store :=
  (.created st.next_id delete_token name text ts,
   { st with
      reviews := st.reviews ++ [⟨st.next_id, name, text, ts, client_id, delete_token⟩],
      next_id := st.next_id + 1 })

/-- `POST /api/reviews` (`create_review`): trim `name` and `text` (missing
fields read as `''`), reject empty `name`, reject a `text` field that is
entirely absent, resolve the client id, enforce the sticky-name rule
against the client's latest review, require captcha only when the client
has no prior review, then insert with a minted `delete_token`. -/
def create_review (now : Nat) (p : Payload) (cookie : Option String)
    (mintedClient mintedToken : String) (st : Store) : CreateResult × Store :=
  let name := pyStrip (orEmpty p.name)
  let text := pyStrip (orEmpty p.text)
  if name = "" then (.validationName, st)
  else if text = "" ∧ p.text = none then (.validationText, st)
  else
    let client_id := resolveClient cookie mintedClient
    match findLatestByClient client_id st with
    | some row =>
      if row.name ≠ name then (.nameConflict, st)
      else insertReview name text now client_id mintedToken st
    | none =>
      let res := verify_captcha now p.captcha_id p.captcha_answer st
      if res.1 then insertReview name text now client_id mintedToken res.2
      else (.captchaFailed, res.2)

/-- `DELETE FROM reviews WHERE id=?`. -/
def deleteById (rid : Nat) (st : Store) : Store :=
  { st with reviews := st.reviews.filter (fun r => r.id ≠ rid) }

/-- The guard pattern `if x and x == target` of `delete_review`: the
optional string must be truthy (present and non-empty) and equal the
target. -/
def truthyEq (x : Option String) (target : String) : Bool :=
  match x with
  | some t => t != "" && t == target
  | none => false

/-- `DELETE /api/reviews/<rid>` (`delete_review`): 404 when the id is
unknown; else delete when the supplied token is truthy and equals the
stored `delete_token` (`secrets.compare_digest`, modelled as string
equality — the constant-time execution property itself is outside a
functional model); else delete when the `aj_client_id` cookie is truthy
and equals the stored `client_id`; else 403. -/
def delete_review (rid : Nat) (token : Option String) (cookie : Option String)
    (st : Store) : DeleteResult × Store :=
  match st.reviews.find? (fun r => r.id == rid) with
  | none => (.notFound, st)
  | some row =>
    if truthyEq token row.delete_token then
      (.ok, deleteById rid st)
    else if truthyEq cookie row.client_id then
      (.ok, deleteById rid st)
    else
      (.unauthorized, st)

/-- One inbound request, with all nondeterminism (clock, random tokens)
made explicit. -/
inductive Op where
  | captchaOp (cid : String) (a b : Nat) (now : Nat)
  | listOp (limitParam : Option String)
  | createOp (now : Nat) (p : Payload) (cookie : Option String)
      (mintedClient mintedToken : String)
  | deleteOp (rid : Nat) (token : Option String) (cookie : Option String)
deriving DecidableEq, Repr

/-- Effect of a request on the store. -/
def applyOp (st : Store) : Op → Store
  | .captchaOp cid a b now => (get_captcha cid a b now st).2
  | .listOp _ => st
  | .createOp now p cookie m mt => (create_review now p cookie m mt st).2
  | .deleteOp rid token cookie => (delete_review rid token cookie st).2

/-- Run a sequence of requests. -/
def runTrace (st : Store) (ops : List Op) : Store :=
  ops.foldl applyOp st

/-- States reachable from a fresh database by any request sequence. -/
inductive Reachable : Store → Prop where
  | init : Reachable Store.init
  | step {st : Store} (op : Op) : Reachable st → Reachable (applyOp st op)

/-! ### Sample data used by witnesses -/

/-- A sample store holding one captcha (answer 7, expiring at time 600). -/
def sampleCaptchaStore : Store := ⟨[], [⟨"c", "7", 600⟩], 1⟩

/-- A sample store holding one review by client `m`. -/
def sampleReviewStore : Store := ⟨[⟨1, "Al", "hi", 500, "m", "tok"⟩], [], 2⟩

/-! ### Helper lemmas about the captcha table -/

theorem findCaptcha_deleteCaptcha_self (c : String) (st : Store) :
    findCaptcha c (deleteCaptcha c st) = none := by
  simp only [findCaptcha, deleteCaptcha]
  rw [List.find?_eq_none]
  intro x hx
  rcases List.mem_filter.mp hx with ⟨-, hne⟩
  simpa using hne

theorem findCaptcha_deleteCaptcha_none (c c' : String) (st : Store)
    (h : findCaptcha c st = none) : findCaptcha c (deleteCaptcha c' st) = none := by
  simp only [findCaptcha, deleteCaptcha] at h ⊢
  rw [List.find?_eq_none] at h ⊢
  intro x hx
  exact h x (List.mem_filter.mp hx).1

theorem verify_captcha_snd_cases (now : Nat) (ci a : Option String) (st : Store) :
    (verify_captcha now ci a st).2 = st ∨
      ∃ c, ci = some c ∧ (verify_captcha now ci a st).2 = deleteCaptcha c st := by
  unfold verify_captcha
  rcases ci with _ | c
  · exact Or.inl rfl
  · by_cases hc : c = ""
    · simp [hc]
    · simp only [hc, if_false]
      rcases hrow : findCaptcha c st with _ | row
    

      · exact Or.inl rfl
      · by_cases hexp : row.expires_at < now
        · simp only [hexp, if_true]
          exact Or.inr ⟨c, rfl, rfl⟩
        · simp only [hexp, if_false]
          by_cases hans : pyStrip (pyStr a) ≠ pyStrip row.answer
          · simp [hans]
          · simp only [hans, if_false]
            exact Or.inr ⟨c, rfl, rfl⟩

theorem verify_captcha_reviews (now : Nat) (ci a : Option String) (st : Store) :
    (verify_captcha now ci a st).2.reviews = st.reviews ∧
    (verify_captcha now ci a st).2.next_id = st.next_id := by
  rcases verify_captcha_snd_cases now ci a st with h | ⟨c, -, h⟩ <;> rw [h] <;>
    exact ⟨rfl, rfl⟩

theorem verify_captcha_absent (now : Nat) (c : String) (a : Option String)
    (st : Store) (h : findCaptcha c st = none) :
    verify_captcha now (some c) a st = (false, st) := by
  by_cases hc : c = ""
  · simp [verify_captcha, hc]
  · simp [verify_captcha, hc, h]

theorem verify_captcha_true_elim {now : Nat} {ci a : Option String} {st : Store}
    (h : (verify_captcha now ci a st).1 = true) :
    ∃ c, ci = some c ∧ (verify_captcha now ci a st).2 = deleteCaptcha c st ∧
      findCaptcha c (verify_captcha now ci a st).2 = none := by
  rcases ci with _ | c
  · simp [verify_captcha] at h
  · refine ⟨c, rfl, ?_⟩
    by_cases hc : c = ""
    · simp [verify_captcha, hc] at h
    · rcases hrow : findCaptcha c st with _ | row
      · simp [verify_captcha, hc, hrow] at h
      · by_cases hexp : row.expires_at < now
        · simp [verify_captcha, hc, hrow, hexp] at h
        · by_cases hans : pyStrip (pyStr a) = pyStrip row.answer
          · have hv : verify_captcha now (some c) a st = (true, deleteCaptcha c st) := by
              simp [verify_captcha, hc, hrow, hexp, hans]
            rw [hv]
            exact ⟨rfl, findCaptcha_deleteCaptcha_self c st⟩
          · simp [verify_captcha, hc, hrow, hexp, hans] at h

/-! ### Helper lemmas about sorting and lookups -/

theorem mem_sortByTsDesc {r : Review} {l : List Review} :
    r ∈ sortByTsDesc l ↔ r ∈ l :=
  List.mem_insertionSort tsGe

theorem length_sortByTsDesc (l : List Review) :
    (sortByTsDesc l).length = l.length :=
  List.length_insertionSort tsGe l

theorem sorted_sortByTsDesc (l : List Review) :
    List.Pairwise tsGe (sortByTsDesc l) :=
  List.sorted_insertionSort tsGe l

theorem findLatestByClient_some {c : String} {st : Store} {r : Review}
    (h : findLatestByClient c st = some r) :
    r ∈ st.reviews ∧ r.client_id = c := by
  have hm : r ∈ sortByTsDesc (st.reviews.filter (fun x => x.client_id == c)) :=
    List.mem_of_mem_head? h
  rcases List.mem_filter.mp (mem_sortByTsDesc.mp hm) with ⟨h1, h2⟩
  exact ⟨h1, by simpa using h2⟩

theorem findLatestByClient_none {c : String} {st : Store}
    (h : findLatestByClient c st = none) :
    ∀ r ∈ st.reviews, r.client_id ≠ c := by
  rw [findLatestByClient, List.head?_eq_none_iff] at h
  intro r hr hc
  have hm : r ∈ sortByTsDesc (st.reviews.filter (fun x => x.client_id == c)) := by
    rw [mem_sortByTsDesc, List.mem_filter]
    exact ⟨hr, by simp [hc]⟩
  rw [h] at hm
  exact absurd hm (List.not_mem_nil r)

/-! ### Helper lemmas about create_review -/

theorem pyStrip_empty : pyStrip "" = "" := by decide

theorem orEmpty_none : orEmpty none = "" := rfl

theorem orEmpty_some (s : String) : orEmpty (some s) = s := rfl

theorem create_review_eq_noname {p : Payload} (now : Nat) (cookie : Option String)
    (m mt : String) (st : Store) (hn : pyStrip (orEmpty p.name) = "") :
    create_review now p cookie m mt st = (.validationName, st) := by
  simp [create_review, hn]

theorem create_review_eq_notext {p : Payload} (now : Nat) (cookie : Option String)
    (m mt : String) (st : Store) (hn : pyStrip (orEmpty p.name) ≠ "")
    (htn : p.text = none) :
    create_review now p cookie m mt st = (.validationText, st) := by
  simp [create_review, hn, htn, orEmpty_none, pyStrip_empty]

theorem create_review_eq_conflict {p : Payload} {cookie : Option String}
    {m : String} {st : Store} {row : Review} (now : Nat) (mt : String)
    (hn : pyStrip (orEmpty p.name) ≠ "")
    (ht : ¬(pyStrip (orEmpty p.text) = "" ∧ p.text = none))
    (hrow : findLatestByClient (resolveClient cookie m) st = some row)
    (hdiff : row.name ≠ pyStrip (orEmpty p.name)) :
    create_review now p cookie m mt st = (.nameConflict, st) := by
  simp [create_review, hn, ht, hrow, hdiff]

theorem create_review_eq_same {p : Payload} {cookie : Option String}
    {m : String} {st : Store} {row : Review} (now : Nat) (mt : String)
    (hn : pyStrip (orEmpty p.name) ≠ "")
    (ht : ¬(pyStrip (orEmpty p.text) = "" ∧ p.text = none))
    (hrow : findLatestByClient (resolveClient cookie m) st = some row)
    (hsame : row.name = pyStrip (orEmpty p.name)) :
    create_review now p cookie m mt st =
      insertReview (pyStrip (orEmpty p.name)) (pyStrip (orEmpty p.text)) now
        (resolveClient cookie m) mt st := by
  simp [create_review, hn, ht, hrow, hsame]

theorem create_review_eq_fresh_ok {p : Payload} {cookie : Option String}
    {m : String} {st : Store} (now : Nat) (mt : String)
    (hn : pyStrip (orEmpty p.name) ≠ "")
    (ht : ¬(pyStrip (orEmpty p.text) = "" ∧ p.text = none))
    (hrow : findLatestByClient (resolveClient cookie m) st = none)
    (hver : (verify_captcha now p.captcha_id p.captcha_answer st).1 = true) :
    create_review now p cookie m mt st =
      insertReview (pyStrip (orEmpty p.name)) (pyStrip (orEmpty p.text)) now
        (resolveClient cookie m) mt
        (verify_captcha now p.captcha_id p.captcha_answer st).2 := by
  simp [create_review, hn, ht, hrow, hver]

theorem create_review_eq_fresh_fail {p : Payload} {cookie : Option String}
    {m : String} {st : Store} (now : Nat) (mt : String)
    (hn : pyStrip (orEmpty p.name) ≠ "")
    (ht : ¬(pyStrip (orEmpty p.text) = "" ∧ p.text = none))
    (hrow : findLatestByClient (resolveClient cookie m) st = none)
    (hver : (verify_captcha now p.captcha_id p.captcha_answer st).1 = false) :
    create_review now p cookie m mt st =
      (.captchaFailed, (verify_captcha now p.captcha_id p.captcha_answer st).2) := by
  simp [create_review, hn, ht, hrow, hver]

theorem create_review_created {now : Nat} {p : Payload} {cookie : Option String}
    {m mt : String} {st : Store} {i : Nat} {tok nm tx : String} {ts1 : Nat}
    {st1 : Store}
    (h : create_review now p cookie m mt st = (.created i tok nm tx ts1, st1)) :
    i = st.next_id ∧ tok = mt ∧ nm = pyStrip (orEmpty p.name) ∧
    tx = pyStrip (orEmpty p.text) ∧ ts1 = now ∧ nm ≠ "" ∧
    st1.reviews = st.reviews ++
      [⟨st.next_id, nm, tx, now, resolveClient cookie m, mt⟩] ∧
    st1.next_id = st.next_id + 1 := by
  by_cases hn : pyStrip (orEmpty p.name) = ""
  · rw [create_review_eq_noname now cookie m mt st hn] at h
    simp at h
  · by_cases ht : pyStrip (orEmpty p.text) = "" ∧ p.text = none
    · rw [create_review_eq_notext now cookie m mt st hn ht.2] at h
      simp at h
    · rcases hrow : findLatestByClient (resolveClient cookie m) st with _ | row
      · rcases hver : (verify_captcha now p.captcha_id p.captcha_answer st).1 with _ | _
        · rw [create_review_eq_fresh_fail now mt hn ht hrow hver] at h
          simp at h
        · rw [create_review_eq_fresh_ok now mt hn ht hrow hver] at h
          have hvr := verify_captcha_reviews now p.captcha_id p.captcha_answer st
          simp only [insertReview, Prod.mk.injEq, CreateResult.created.injEq] at h
          obtain ⟨⟨hi, htok, hnm, htx, hts⟩, hst⟩ := h
          subst hst
          refine ⟨by rw [← hi, hvr.2], htok.symm, hnm.symm, htx.symm, hts.symm,
            by rw [← hnm]; exact hn, ?_, ?_⟩
          · simp [hvr.1, hvr.2, hnm, htx]
          · simp [hvr.2]
      · by_cases hdiff : row.name = pyStrip (orEmpty p.name)
        · rw [create_review_eq_same now mt hn ht hrow hdiff] at h
          simp only [insertReview, Prod.mk.injEq, CreateResult.created.injEq] at h
          obtain ⟨⟨hi, htok, hnm, htx, hts⟩, hst⟩ := h
          subst hst
          refine ⟨hi.symm, htok.symm, hnm.symm, htx.symm, hts.symm,
            by rw [← hnm]; exact hn, ?_, ?_⟩
          · simp [hnm, htx]
          · simp
        · rw [create_review_eq_conflict now mt hn ht hrow hdiff] at h
          simp at h

theorem create_review_state_cases (now : Nat) (p : Payload) (cookie : Option String)
    (m mt : String) (st : Store) :
    ((create_review now p cookie m mt st).2.reviews = st.reviews ∧
     st.next_id ≤ (create_review now p cookie m mt st).2.next_id) ∨
    (∃ nm tx : String,
      (create_review now p cookie m mt st).2.reviews =
        st.reviews ++ [⟨st.next_id, nm, tx, now, resolveClient cookie m, mt⟩] ∧
      (create_review now p cookie m mt st).2.next_id = st.next_id + 1 ∧
      ((∃ row, findLatestByClient (resolveClient cookie m) st = some row ∧
          row.name = nm) ∨
        findLatestByClient (resolveClient cookie m) st = none)) := by
  by_cases hn : pyStrip (orEmpty p.name) = ""
  · rw [create_review_eq_noname now cookie m mt st hn]
    exact Or.inl ⟨rfl, le_refl _⟩
  · by_cases ht : pyStrip (orEmpty p.text) = "" ∧ p.text = none
    · rw [create_review_eq_notext now cookie m mt st hn ht.2]
      exact Or.inl ⟨rfl, le_refl _⟩
    · rcases hrow : findLatestByClient (resolveClient cookie m) st with _ | row
      · rcases hver : (verify_captcha now p.captcha_id p.captcha_answer st).1 with _ | _
        · rw [create_review_eq_fresh_fail now mt hn ht hrow hver]
          have hvr := verify_captcha_reviews now p.captcha_id p.captcha_answer st
          exact Or.inl ⟨hvr.1, le_of_eq hvr.2.symm⟩
        · rw [create_review_eq_fresh_ok now mt hn ht hrow hver]
          have hvr := verify_captcha_reviews now p.captcha_id p.captcha_answer st
          refine Or.inr ⟨pyStrip (orEmpty p.name), pyStrip (orEmpty p.text),
            ?_, ?_, Or.inr rfl⟩
          · simp [insertReview, hvr.1, hvr.2]
          · simp [insertReview, hvr.2]
      · by_cases hdiff : row.name = pyStrip (orEmpty p.name)
        · rw [create_review_eq_same now mt hn ht hrow hdiff]
          exact Or.inr ⟨pyStrip (orEmpty p.name), pyStrip (orEmpty p.text),
            by simp [insertReview], by simp [insertReview],
            Or.inl ⟨row, rfl, hdiff⟩⟩
        · rw [create_review_eq_conflict now mt hn ht hrow hdiff]
          exact Or.inl ⟨rfl, le_refl _⟩

theorem delete_review_state (rid : Nat) (tok ck : Option String) (st : Store) :
    (delete_review rid tok ck st).2 = st ∨
    (delete_review rid tok ck st).2 = deleteById rid st := by
  unfold delete_review
  split
  · exact Or.inl rfl
  · split
    · exact Or.inr rfl
    · split
      · exact Or.inr rfl
      · exact Or.inl rfl

/-! ### The sticky-name invariant -/

/-- All reviews of one client identity carry the same display name. -/
def SameNamePerClient (st : Store) : Prop :=
  ∀ r1 ∈ st.reviews, ∀ r2 ∈ st.reviews, r1.client_id = r2.client_id →
    r1.name = r2.name

theorem sameNamePerClient_applyOp {st : Store} (op : Op)
    (h : SameNamePerClient st) : SameNamePerClient (applyOp st op) := by
  cases op with
  | captchaOp cid a b now => exact h
  | listOp lp => exact h
  | deleteOp rid tok ck =>
    intro r1 h1 r2 h2 hcc
    rcases delete_review_state rid tok ck st with hd | hd <;>
      simp only [applyOp] at h1 h2 <;> rw [hd] at h1 h2
    · exact h r1 h1 r2 h2 hcc
    · simp only [deleteById] at h1 h2
      exact h r1 (List.mem_filter.mp h1).1 r2 (List.mem_filter.mp h2).1 hcc
  | createOp now p cookie m mt =>
    intro r1 h1 r2 h2 hcc
    simp only [applyOp] at h1 h2
    rcases create_review_state_cases now p cookie m mt st with
      ⟨hr, -⟩ | ⟨nm, tx, hr, -, hsticky⟩
    · rw [hr] at h1 h2
      exact h r1 h1 r2 h2 hcc
    · rw [hr] at h1 h2
      rcases List.mem_append.mp h1 with h1' | h1' <;>
        rcases List.mem_append.mp h2 with h2' | h2'
      · exact h r1 h1' r2 h2' hcc
      · have h2e : r2 = ⟨st.next_id, nm, tx, now, resolveClient cookie m, mt⟩ := by
          simpa using h2'
        subst h2e
        rcases hsticky with ⟨row, hrow, hname⟩ | hnone
        · rcases findLatestByClient_some hrow with ⟨hrmem, hrcid⟩
          have hc1 : r1.client_id = row.client_id := hcc.trans hrcid.symm
          show r1.name = nm
          rw [h r1 h1' row hrmem hc1, hname]
        · exact absurd hcc (findLatestByClient_none hnone r1 h1')
      · have h1e : r1 = ⟨st.next_id, nm, tx, now, resolveClient cookie m, mt⟩ := by
          simpa using h1'
        subst h1e
        rcases hsticky with ⟨row, hrow, hname⟩ | hnone
        · rcases findLatestByClient_some hrow with ⟨hrmem, hrcid⟩
          have hc2 : r2.client_id = row.client_id := hcc.symm.trans hrcid.symm
          show nm = r2.name
          rw [h r2 h2' row hrmem hc2, hname]
        · exact absurd hcc.symm (findLatestByClient_none hnone r2 h2')
      · have h1e : r1 = ⟨st.next_id, nm, tx, now, resolveClient cookie m, mt⟩ := by
          simpa using h1'
        have h2e : r2 = ⟨st.next_id, nm, tx, now, resolveClient cookie m, mt⟩ := by
          simpa using h2'
        rw [h1e, h2e]

theorem reachable_sameNamePerClient {st : Store} (h : Reachable st) :
    SameNamePerClient st := by
  induction h with
  | init => intro r1 h1; exact absurd h1 (List.not_mem_nil r1)
  | step op _ ih => exact sameNamePerClient_applyOp op ih

/-! ### Claims -/

/-- Claim C1: for a client identity with an existing review, creating with
a submitted name (post-trim) different from the stored name fails with
`NameConflictError` regardless of any captcha supplied and inserts
nothing; creating with the same name succeeds without any captcha
verification.  Consequently every reachable store state has all reviews
of a given `client_id` carrying one name. -/
theorem C1_sticky_name :
    (∀ (now : Nat) (n t : String) (ci ca cookie : Option String)
        (m mt : String) (st : Store) (row : Review),
      findLatestByClient (resolveClient cookie m) st = some row →
      pyStrip n ≠ "" → row.name ≠ pyStrip n →
      create_review now ⟨some n, some t, ci, ca⟩ cookie m mt st =
        (.nameConflict, st)) ∧
    (∀ (now : Nat) (n t : String) (ci ca cookie : Option String)
        (m mt : String) (st : Store) (row : Review),
      findLatestByClient (resolveClient cookie m) st = some row →
      pyStrip n ≠ "" → row.name = pyStrip n →
      create_review now ⟨some n, some t, ci, ca⟩ cookie m mt st =
        (.created st.next_id mt (pyStrip n) (pyStrip t) now,
         { st with
            reviews := st.reviews ++
              [⟨st.next_id, pyStrip n, pyStrip t, now,
                resolveClient cookie m, mt⟩],
            next_id := st.next_id + 1 })) ∧
    (∀ st : Store, Reachable st → ∀ r1 ∈ st.reviews, ∀ r2 ∈ st.reviews,
      r1.client_id = r2.client_id → r1.name = r2.name) := by
  refine ⟨?_, ?_, ?_⟩
  · intro now n t ci ca cookie m mt st row hrow hn hdiff
    exact create_review_eq_conflict now mt hn
      (fun hcon => Option.some_ne_none t hcon.2) hrow hdiff
  · intro now n t ci ca cookie m mt st row hrow hn hsame
    exact create_review_eq_same now mt hn
      (fun hcon => Option.some_ne_none t hcon.2) hrow hsame
  · intro st hreach
    exact reachable_sameNamePerClient hreach

/-- Witness for C1: on a store with one review by client `m` under the
name `Al`, a post with name `Bob` from the same cookie is a name
conflict, a post with name ` Al ` (same post-trim) succeeds with no
captcha, and the sticky-name invariant instantiated at a reachable
two-review store. -/
theorem C1_sticky_name_witness :
    create_review 600 ⟨some "Bob", some "x", none, none⟩ (some "m") "mm" "t2"
        sampleReviewStore = (.nameConflict, sampleReviewStore) ∧
    create_review 600 ⟨some " Al ", some " x ", none, none⟩ (some "m") "mm" "t2"
        sampleReviewStore =
      (.created 2 "t2" "Al" "x" 600,
       { reviews := [⟨1, "Al", "hi", 500, "m", "tok"⟩,
                     ⟨2, "Al", "x", 600, "m", "t2"⟩],
         captchas := [], next_id := 3 }) ∧
    (⟨1, "Al", "hi", 200, "m", "tok"⟩ : Review).name =
      (⟨2, "Al", "yo", 300, "m", "tok2"⟩ : Review).name := by
  refine ⟨?_, ?_, ?_⟩
  · exact C1_sticky_name.1 600 "Bob" "x" none none (some "m") "mm" "t2"
      sampleReviewStore ⟨1, "Al", "hi", 500, "m", "tok"⟩
      (by decide) (by decide) (by decide)
  · exact (C1_sticky_name.2.1 600 " Al " " x " none none (some "m") "mm" "t2"
      sampleReviewStore ⟨1, "Al", "hi", 500, "m", "tok"⟩
      (by decide) (by decide) (by decide)).trans (by decide)
  · exact C1_sticky_name.2.2
      (applyOp (applyOp (applyOp Store.init (.captchaOp "c" 3 4 100))
        (.createOp 200 ⟨some "Al", some "hi", some "c", some "7"⟩ none "m" "tok"))
        (.createOp 300 ⟨some "Al", some "yo", none, none⟩ (some "m") "m2" "tok2"))
      (Reachable.step _ (Reachable.step _ (Reachable.step _ Reachable.init)))
      ⟨1, "Al", "hi", 200, "m", "tok"⟩ (by decide)
      ⟨2, "Al", "yo", 300, "m", "tok2"⟩ (by decide) (by decide)

/-- Claim C3: `verify(cid, answer)` returns false when `cid` is absent or
empty, when no record with that `cid` exists, or when the record has
expired — in the expiry case the record is deleted and the outcome does
not depend on the answer.  Otherwise the trimmed submitted answer is
compared to the stored answer: on a match the record is deleted and true
returned; on a mismatch false is returned without deleting, so a later
correct attempt before expiry still succeeds. -/
theorem C3_verify_cases :
    (∀ (now : Nat) (a : Option String) (st : Store),
      verify_captcha now none a st = (false, st)) ∧
    (∀ (now : Nat) (a : Option String) (st : Store),
      verify_captcha now (some "") a st = (false, st)) ∧
    (∀ (now : Nat) (c : String) (a : Option String) (st : Store),
      findCaptcha c st = none →
      verify_captcha now (some c) a st = (false, st)) ∧
    (∀ (now : Nat) (c : String) (a : Option String) (st : Store)
        (row : Captcha),
      c ≠ "" → findCaptcha c st = some row → row.expires_at < now →
      verify_captcha now (some c) a st = (false, deleteCaptcha c st) ∧
      findCaptcha c (verify_captcha now (some c) a st).2 = none ∧
      (∀ a2, verify_captcha now (some c) a st =
        verify_captcha now (some c) a2 st)) ∧
    (∀ (now : Nat) (c : String) (a : Option String) (st : Store)
        (row : Captcha),
      c ≠ "" → findCaptcha c st = some row → ¬ row.expires_at < now →
      pyStrip (pyStr a) = pyStrip row.answer →
      verify_captcha now (some c) a st = (true, deleteCaptcha c st)) ∧
    (∀ (now : Nat) (c : String) (a : Option String) (st : Store)
        (row : Captcha),
      c ≠ "" → findCaptcha c st = some row → ¬ row.expires_at < now →
      pyStrip (pyStr a) ≠ pyStrip row.answer →
      verify_captcha now (some c) a st = (false, st) ∧
      (∀ (now2 : Nat) (a2 : Option String), ¬ row.expires_at < now2 →
        pyStrip (pyStr a2) = pyStrip row.answer →
        verify_captcha now2 (some c) a2 (verify_captcha now (some c) a st).2 =
          (true, deleteCaptcha c st))) := by
  refine ⟨fun _ _ _ => rfl, fun now a st => by simp [verify_captcha],
    ?_, ?_, ?_, ?_⟩
  · intro now c a st h
    exact verify_captcha_absent now c a st h
  · intro now c a st row hc hrow hexp
    have heq : verify_captcha now (some c) a st = (false, deleteCaptcha c st) := by
      simp [verify_captcha, hc, hrow, hexp]
    refine ⟨heq, ?_, ?_⟩
    · rw [heq]
      exact findCaptcha_deleteCaptcha_self c st
    · intro a2
      rw [heq]
      simp [verify_captcha, hc, hrow, hexp]
  · intro now c a st row hc hrow hexp hans
    simp [verify_captcha, hc, hrow, hexp, hans]
  · intro now c a st row hc hrow hexp hans
    have heq : verify_captcha now (some c) a st = (false, st) := by
      simp [verify_captcha, hc, hrow, hexp, hans]
    refine ⟨heq, ?_⟩
    intro now2 a2 hexp2 hans2
    rw [heq]
    simp [verify_captcha, hc, hrow, hexp2, hans2]

/-- Witness for C3: all six branches of `verify_captcha` exercised on a
store holding the captcha `("c","7")` expiring at 600. -/
theorem C3_verify_cases_witness :
    verify_captcha 100 none (some "7") sampleCaptchaStore =
      (false, sampleCaptchaStore) ∧
    verify_captcha 100 (some "") (some "7") sampleCaptchaStore =
      (false, sampleCaptchaStore) ∧
    verify_captcha 100 (some "z") (some "7") sampleCaptchaStore =
      (false, sampleCaptchaStore) ∧
    verify_captcha 601 (some "c") (some "7") sampleCaptchaStore =
      (false, deleteCaptcha "c" sampleCaptchaStore) ∧
    verify_captcha 600 (some "c") (some " 7 ") sampleCaptchaStore =
      (true, deleteCaptcha "c" sampleCaptchaStore) ∧
    verify_captcha 600 (some "c") (some "8") sampleCaptchaStore =
      (false, sampleCaptchaStore) ∧
    verify_captcha 600 (some "c") (some "7")
        (verify_captcha 600 (some "c") (some "8") sampleCaptchaStore).2 =
      (true, deleteCaptcha "c" sampleCaptchaStore) := by
  refine ⟨C3_verify_cases.1 100 (some "7") sampleCaptchaStore,
    C3_verify_cases.2.1 100 (some "7") sampleCaptchaStore,
    C3_verify_cases.2.2.1 100 "z" (some "7") sampleCaptchaStore (by decide),
    (C3_verify_cases.2.2.2.1 601 "c" (some "7") sampleCaptchaStore
      ⟨"c", "7", 600⟩ (by decide) (by decide) (by decide)).1,
    C3_verify_cases.2.2.2.2.1 600 "c" (some " 7 ") sampleCaptchaStore
      ⟨"c", "7", 600⟩ (by decide) (by decide) (by decide) (by decide),
    (C3_verify_cases.2.2.2.2.2 600 "c" (some "8") sampleCaptchaStore
      ⟨"c", "7", 600⟩ (by decide) (by decide) (by decide) (by decide)).1,
    (C3_verify_cases.2.2.2.2.2 600 "c" (some "8") sampleCaptchaStore
      ⟨"c", "7", 600⟩ (by decide) (by decide) (by decide) (by decide)).2
      600 (some "7") (by decide) (by decide)⟩

/-- Claim C6 (counterexample): with `limit=abcd` the code does not fall
back to the default 200 — `int('abcd')` raises and no listing is produced
(modelled as `none`) — refuting "parse failures default to 200". -/
theorem C6_counterexample :
    list_reviews (some "abcd") Store.init = none ∧
    list_reviews (some "abcd") Store.init ≠
      some (listWithLimit 200 Store.init) := by
  exact ⟨by decide, by decide⟩

/-- Claim C6 (amended): the applied limit is computed from only the first
4 characters of the requested value's string; an absent or empty value
defaults to 200; a non-empty value whose first 4 characters fail to parse
as an integer makes the request fail (uncaught error) instead of
defaulting. -/
theorem C6_limit_amended :
    (∀ s : String, s ≠ "" → computeLimit (some s) = pyInt (strTake s 4)) ∧
    (computeLimit none = some 200 ∧ computeLimit (some "") = some 200) ∧
    (∀ s t : String, s ≠ "" → t ≠ "" → strTake s 4 = strTake t 4 →
      computeLimit (some s) = computeLimit (some t)) ∧
    (∀ (s : String) (st : Store), s ≠ "" → pyInt (strTake s 4) = none →
      list_reviews (some s) st = none) := by
  refine ⟨?_, ⟨rfl, by decide⟩, ?_, ?_⟩
  · intro s hs
    simp [computeLimit, hs]
  · intro s t hs ht heq
    simp [computeLimit, hs, ht, heq]
  · intro s st hs hp
    simp [list_reviews, computeLimit, hs, hp]

/-- Witness for C6 amended: `limit=12345` is truncated to 1234,
`limit=1234X` is read identically to `limit=12345`, and `limit=overflow`
fails. -/
theorem C6_limit_amended_witness :
    computeLimit (some "12345") = pyInt (strTake "12345" 4) ∧
    computeLimit (some "12345") = computeLimit (some "1234X") ∧
    list_reviews (some "overflow") Store.init = none := by
  refine ⟨C6_limit_amended.1 "12345" (by decide),
    C6_limit_amended.2.2.1 "12345" "1234X" (by decide) (by decide) (by decide),
    C6_limit_amended.2.2.2 "overflow" Store.init (by decide) (by decide)⟩

/-- Claim C7: create fails with `ValidationError` when the `text` field is
entirely absent from the payload, while an explicitly supplied empty
string for `text` passes validation; create also fails with
`ValidationError` when the trimmed name is empty.  In the failing cases
the store is unchanged, so no review is inserted. -/
theorem C7_validation :
    (∀ (now : Nat) (p : Payload) (cookie : Option String) (m mt : String)
        (st : Store), pyStrip (orEmpty p.name) = "" →
      create_review now p cookie m mt st = (.validationName, st)) ∧
    (∀ (now : Nat) (p : Payload) (cookie : Option String) (m mt : String)
        (st : Store), pyStrip (orEmpty p.name) ≠ "" → p.text = none →
      create_review now p cookie m mt st = (.validationText, st)) ∧
    (∀ (now : Nat) (n ci ca cookie : Option String) (m mt : String)
        (st : Store), pyStrip (orEmpty n) ≠ "" →
      (create_review now ⟨n, some "", ci, ca⟩ cookie m mt st).1 ≠
        .validationName ∧
      (create_review now ⟨n, some "", ci, ca⟩ cookie m mt st).1 ≠
        .validationText) := by
  refine ⟨?_, ?_, ?_⟩
  · intro now p cookie m mt st hn
    exact create_review_eq_noname now cookie m mt st hn
  · intro now p cookie m mt st hn htn
    exact create_review_eq_notext now cookie m mt st hn htn
  · intro now n ci ca cookie m mt st hn
    have ht : ¬(pyStrip (orEmpty (Payload.mk n (some "") ci ca).text) = "" ∧
        (Payload.mk n (some "") ci ca).text = none) :=
      fun hcon => Option.some_ne_none "" hcon.2
    rcases hrow : findLatestByClient (resolveClient cookie m) st with _ | row
    · rcases hver : (verify_captcha now ci ca st).1 with _ | _
      · rw [create_review_eq_fresh_fail now mt hn ht hrow hver]
        exact ⟨by simp, by simp⟩
      · rw [create_review_eq_fresh_ok now mt hn ht hrow hver]
        exact ⟨by simp [insertReview], by simp [insertReview]⟩
    · by_cases hdiff : row.name = pyStrip (orEmpty n)
      · rw [create_review_eq_same now mt hn ht hrow hdiff]
        exact ⟨by simp [insertReview], by simp [insertReview]⟩
      · rw [create_review_eq_conflict now mt hn ht hrow hdiff]
        exact ⟨by simp, by simp⟩

/-- Witness for C7: a whitespace-only name is rejected, a payload without
`text` is rejected, and a payload with `text` explicitly the empty string
passes both validations. -/
theorem C7_validation_witness :
    create_review 100 ⟨some "  ", some "x", none, none⟩ none "m" "t"
      Store.init = (.validationName, Store.init) ∧
    create_review 100 ⟨some "Al", none, none, none⟩ none "m" "t"
      Store.init = (.validationText, Store.init) ∧
    ((create_review 600 ⟨some "Al", some "", none, none⟩ (some "m") "mm" "t2"
        sampleReviewStore).1 ≠ .validationName ∧
      (create_review 600 ⟨some "Al", some "", none, none⟩ (some "m") "mm" "t2"
        sampleReviewStore).1 ≠ .validationText) := by
  refine ⟨C7_validation.1 100 ⟨some "  ", some "x", none, none⟩ none "m" "t"
      Store.init (by decide),
    C7_validation.2.1 100 ⟨some "Al", none, none, none⟩ none "m" "t"
      Store.init (by decide) rfl,
    C7_validation.2.2 600 (some "Al") none none (some "m") "mm" "t2"
      sampleReviewStore (by decide)⟩

/-- Claim C5: for a client identity with no prior review, captcha
verification is mandatory: on failure create returns `CaptchaError` and
no review is inserted (the reviews table is unchanged); on success the
captcha is consumed, the review is inserted, and a `delete_token` is
returned in the response. -/
theorem C5_first_post_captcha :
    (∀ (now : Nat) (n t : String) (ci ca cookie : Option String)
        (m mt : String) (st : Store),
      pyStrip n ≠ "" →
      findLatestByClient (resolveClient cookie m) st = none →
      (verify_captcha now ci ca st).1 = false →
      create_review now ⟨some n, some t, ci, ca⟩ cookie m mt st =
        (.captchaFailed, (verify_captcha now ci ca st).2) ∧
      (verify_captcha now ci ca st).2.reviews = st.reviews) ∧
    (∀ (now : Nat) (n t : String) (ci ca cookie : Option String)
        (m mt : String) (st : Store),
      pyStrip n ≠ "" →
      findLatestByClient (resolveClient cookie m) st = none →
      (verify_captcha now ci ca st).1 = true →
      create_review now ⟨some n, some t, ci, ca⟩ cookie m mt st =
        (.created st.next_id mt (pyStrip n) (pyStrip t) now,
         { reviews := st.reviews ++
             [⟨st.next_id, pyStrip n, pyStrip t, now,
               resolveClient cookie m, mt⟩],
           captchas := (verify_captcha now ci ca st).2.captchas,
           next_id := st.next_id + 1 }) ∧
      (∀ c, ci = some c →
        findCaptcha c
          (create_review now ⟨some n, some t, ci, ca⟩ cookie m mt st).2 =
          none)) := by
  constructor
  · intro now n t ci ca cookie m mt st hn hrow hver
    exact ⟨create_review_eq_fresh_fail now mt hn
        (fun hcon => Option.some_ne_none t hcon.2) hrow hver,
      (verify_captcha_reviews now ci ca st).1⟩
  · intro now n t ci ca cookie m mt st hn hrow hver
    have hvr := verify_captcha_reviews now ci ca st
    have heq := create_review_eq_fresh_ok (p := ⟨some n, some t, ci, ca⟩)
      now mt hn (fun hcon => Option.some_ne_none t hcon.2) hrow hver
    constructor
    · rw [heq]
      simp [insertReview, Prod.mk.injEq, Store.mk.injEq, hvr.1, hvr.2,
        orEmpty_some]
    · intro c hc
      subst hc
      obtain ⟨c2, hc2, -, habsent⟩ := verify_captcha_true_elim hver
      obtain rfl : c2 = c := by injection hc2.symm
      rw [heq]
      simpa [findCaptcha, insertReview] using habsent

/-- Witness for C5: on a store whose only captcha is `("c","7")`, a first
post without captcha fails, and a first post with the right captcha
succeeds, returns the minted delete token, and consumes the captcha. -/
theorem C5_first_post_captcha_witness :
    create_review 100 ⟨some "Al", some "x", none, none⟩ none "m" "t"
      sampleCaptchaStore = (.captchaFailed, sampleCaptchaStore) ∧
    create_review 100 ⟨some " Al ", some " hi ", some "c", some "7"⟩ none "m"
      "tok" sampleCaptchaStore =
      (.created 1 "tok" "Al" "hi" 100,
       ⟨[⟨1, "Al", "hi", 100, "m", "tok"⟩], [], 2⟩) ∧
    findCaptcha "c"
      (create_review 100 ⟨some " Al ", some " hi ", some "c", some "7"⟩ none
        "m" "tok" sampleCaptchaStore).2 = none := by
  refine ⟨?_, ?_, ?_⟩
  · exact ((C5_first_post_captcha.1 100 "Al" "x" none none none "m" "t"
      sampleCaptchaStore (by decide) (by decide) (by decide)).1).trans
      (by decide)
  · exact ((C5_first_post_captcha.2 100 " Al " " hi " (some "c") (some "7")
      none "m" "tok" sampleCaptchaStore (by decide) (by decide)
      (by decide)).1).trans (by decide)
  · exact (C5_first_post_captcha.2 100 " Al " " hi " (some "c") (some "7")
      none "m" "tok" sampleCaptchaStore (by decide) (by decide)
      (by decide)).2 "c" rfl

theorem create_review_passes_validation {p : Payload} {cookie : Option String}
    {m mt : String} {st : Store} (now : Nat)
    (hn : pyStrip (orEmpty p.name) ≠ "")
    (ht : ¬(pyStrip (orEmpty p.text) = "" ∧ p.text = none)) :
    (create_review now p cookie m mt st).1 ≠ .validationName ∧
    (create_review now p cookie m mt st).1 ≠ .validationText := by
  rcases hrow : findLatestByClient (resolveClient cookie m) st with _ | row
  · rcases hver : (verify_captcha now p.captcha_id p.captcha_answer st).1
      with _ | _
    · rw [create_review_eq_fresh_fail now mt hn ht hrow hver]
      exact ⟨by simp, by simp⟩
    · rw [create_review_eq_fresh_ok now mt hn ht hrow hver]
      exact ⟨by simp [insertReview], by simp [insertReview]⟩
  · by_cases hdiff : row.name = pyStrip (orEmpty p.name)
    · rw [create_review_eq_same now mt hn ht hrow hdiff]
      exact ⟨by simp [insertReview], by simp [insertReview]⟩
    · rw [create_review_eq_conflict now mt hn ht hrow hdiff]
      exact ⟨by simp, by simp⟩

/-- Claim C10 (implicit): create trims both `name` and `text` before
validation and storage — the stored and returned fields are the submitted
strings with surrounding whitespace removed — and a whitespace-only
`text` (present in the payload) passes validation and is stored as the
empty string. -/
theorem C10_trim :
    (∀ (now : Nat) (n t : String) (ci ca cookie : Option String)
        (m mt : String) (st : Store) (i : Nat) (tok nm tx : String)
        (ts1 : Nat) (st1 : Store),
      create_review now ⟨some n, some t, ci, ca⟩ cookie m mt st =
        (.created i tok nm tx ts1, st1) →
      nm = pyStrip n ∧ tx = pyStrip t ∧
      st1.reviews = st.reviews ++
        [⟨i, pyStrip n, pyStrip t, now, resolveClient cookie m, tok⟩]) ∧
    (∀ (now : Nat) (n t : String) (ci ca cookie : Option String)
        (m mt : String) (st : Store),
      pyStrip n ≠ "" → pyStrip t = "" →
      (create_review now ⟨some n, some t, ci, ca⟩ cookie m mt st).1 ≠
        .validationName ∧
      (create_review now ⟨some n, some t, ci, ca⟩ cookie m mt st).1 ≠
        .validationText) := by
  constructor
  · intro now n t ci ca cookie m mt st i tok nm tx ts1 st1 h
    obtain ⟨hi, htok, hnm, htx, -, -, hrev, -⟩ := create_review_created h
    refine ⟨hnm, htx, ?_⟩
    rw [hrev, hi, htok, hnm, htx]
    rfl
  · intro now n t ci ca cookie m mt st hn htws
    exact create_review_passes_validation now hn
      (fun hcon => Option.some_ne_none t hcon.2)

/-- Witness for C10: posting name ` Al ` and whitespace-only text `   `
from the bound client stores and returns `Al` and the empty string. -/
theorem C10_trim_witness :
    ("Al" = pyStrip " Al " ∧ "" = pyStrip "   " ∧
      ([⟨1, "Al", "hi", 500, "m", "tok"⟩, ⟨2, "Al", "", 700, "m", "t9"⟩] :
          List Review) =
        sampleReviewStore.reviews ++
          [⟨2, pyStrip " Al ", pyStrip "   ", 700,
            resolveClient (some "m") "mm", "t9"⟩]) ∧
    ((create_review 700 ⟨some " Al ", some "   ", none, none⟩ (some "m") "mm"
        "t9" sampleReviewStore).1 ≠ .validationName ∧
      (create_review 700 ⟨some " Al ", some "   ", none, none⟩ (some "m") "mm"
        "t9" sampleReviewStore).1 ≠ .validationText) := by
  constructor
  · exact C10_trim.1 700 " Al " "   " none none (some "m") "mm" "t9"
      sampleReviewStore 2 "t9" "Al" "" 700
      ⟨[⟨1, "Al", "hi", 500, "m", "tok"⟩, ⟨2, "Al", "", 700, "m", "t9"⟩],
        [], 3⟩ (by decide)
  · exact C10_trim.2 700 " Al " "   " none none (some "m") "mm" "t9"
      sampleReviewStore (by decide) (by decide)

theorem delete_review_cases (rid : Nat) (tok ck : Option String) (st : Store) :
    (delete_review rid tok ck st = (.notFound, st)) ∨
    (delete_review rid tok ck st = (.ok, deleteById rid st)) ∨
    (delete_review rid tok ck st = (.unauthorized, st)) := by
  unfold delete_review
  split
  · exact Or.inl rfl
  · split
    · exact Or.inr (Or.inl rfl)
    · split
      · exact Or.inr (Or.inl rfl)
      · exact Or.inr (Or.inr rfl)

theorem find?_deleteById (rid : Nat) (st : Store) :
    (deleteById rid st).reviews.find? (fun r => r.id == rid) = none := by
  simp only [deleteById]
  rw [List.find?_eq_none]
  intro x hx
  rcases List.mem_filter.mp hx with ⟨-, hne⟩
  simpa using hne

/-- Claim C4: deleting an unknown id fails with `NotFoundError`; a
supplied token equal to the stored `delete_token` succeeds from any
identity cookie; a matching non-empty identity cookie succeeds even with
a wrong or absent token; with neither, deletion fails with
`UnauthorizedError` and the review stays; after a successful delete a
second attempt takes the NotFound path. -/
theorem C4_delete_auth :
    (∀ (rid : Nat) (tok ck : Option String) (st : Store),
      st.reviews.find? (fun r => r.id == rid) = none →
      delete_review rid tok ck st = (.notFound, st)) ∧
    (∀ (rid : Nat) (t : String) (ck : Option String) (st : Store)
        (row : Review),
      st.reviews.find? (fun r => r.id == rid) = some row →
      t ≠ "" → t = row.delete_token →
      delete_review rid (some t) ck st = (.ok, deleteById rid st)) ∧
    (∀ (rid : Nat) (tok : Option String) (c : String) (st : Store)
        (row : Review),
      st.reviews.find? (fun r => r.id == rid) = some row →
      truthyEq tok row.delete_token = false →
      c ≠ "" → c = row.client_id →
      delete_review rid tok (some c) st = (.ok, deleteById rid st)) ∧
    (∀ (rid : Nat) (tok ck : Option String) (st : Store) (row : Review),
      st.reviews.find? (fun r => r.id == rid) = some row →
      truthyEq tok row.delete_token = false →
      truthyEq ck row.client_id = false →
      delete_review rid tok ck st = (.unauthorized, st) ∧
      row ∈ st.reviews) ∧
    (∀ (rid : Nat) (tok ck tok2 ck2 : Option String) (st : Store),
      (delete_review rid tok ck st).1 = .ok →
      (delete_review rid tok2 ck2 (delete_review rid tok ck st).2).1 =
        .notFound) := by
  refine ⟨?_, ?_, ?_, ?_, ?_⟩
  · intro rid tok ck st h
    simp [delete_review, h]
  · intro rid t ck st row hrow ht htok
    subst htok
    simp [delete_review, hrow, truthyEq, ht]
  · intro rid tok c st row hrow htokf hc hcid
    subst hcid
    simp [delete_review, hrow, htokf, truthyEq, hc]
  · intro rid tok ck st row hrow htokf hckf
    exact ⟨by simp [delete_review, hrow, htokf, hckf],
      List.mem_of_find?_eq_some hrow⟩
  · intro rid tok ck tok2 ck2 st h
    rcases delete_review_cases rid tok ck st with hc | hc | hc
    · rw [hc] at h
      simp at h
    · rw [hc]
      simp [delete_review, find?_deleteById]
    · rw [hc] at h
      simp at h

/-- Witness for C4 on a store with one review (id 1, token `tok`, client
`m`): unknown id 2 is NotFound; the right token deletes from a foreign
cookie; the right cookie deletes with a wrong token; neither is
Unauthorized; deleting again after success is NotFound. -/
theorem C4_delete_auth_witness :
    delete_review 2 none none sampleReviewStore =
      (.notFound, sampleReviewStore) ∧
    delete_review 1 (some "tok") (some "zzz") sampleReviewStore =
      (.ok, deleteById 1 sampleReviewStore) ∧
    delete_review 1 (some "bad") (some "m") sampleReviewStore =
      (.ok, deleteById 1 sampleReviewStore) ∧
    (delete_review 1 (some "bad") (some "z") sampleReviewStore =
      (.unauthorized, sampleReviewStore) ∧
      (⟨1, "Al", "hi", 500, "m", "tok"⟩ : Review) ∈
        sampleReviewStore.reviews) ∧
    (delete_review 1 (some "tok2") none
      (delete_review 1 (some "tok") (some "zzz") sampleReviewStore).2).1 =
      .notFound := by
  refine ⟨C4_delete_auth.1 2 none none sampleReviewStore (by decide),
    C4_delete_auth.2.1 1 "tok" (some "zzz") sampleReviewStore
      ⟨1, "Al", "hi", 500, "m", "tok"⟩ (by decide) (by decide) rfl,
    C4_delete_auth.2.2.1 1 (some "bad") "m" sampleReviewStore
      ⟨1, "Al", "hi", 500, "m", "tok"⟩ (by decide) (by decide) (by decide) rfl,
    C4_delete_auth.2.2.2.1 1 (some "bad") (some "z") sampleReviewStore
      ⟨1, "Al", "hi", 500, "m", "tok"⟩ (by decide) (by decide) (by decide),
    C4_delete_auth.2.2.2.2 1 (some "tok") (some "zzz") (some "tok2") none
      sampleReviewStore (by decide)⟩

/-- Claim C8: every listing is ordered by `ts` descending and truncated to
the requested limit; when at least one review exists, `limit=1` returns
exactly one entry, namely one with the greatest `ts`. -/
theorem C8_listing_order :
    (∀ (lim : Int) (st : Store),
      List.Pairwise (fun e1 e2 : Entry => e2.ts ≤ e1.ts)
        (listWithLimit lim st)) ∧
    (∀ (lim : Int) (st : Store), 0 ≤ lim →
      (listWithLimit lim st).length = min lim.toNat st.reviews.length) ∧
    (∀ st : Store, st.reviews ≠ [] →
      ∃ r ∈ st.reviews,
        listWithLimit 1 st = [⟨r.id, r.name, r.text, r.ts⟩] ∧
        ∀ r2 ∈ st.reviews, r2.ts ≤ r.ts) := by
  refine ⟨?_, ?_, ?_⟩
  · intro lim st
    simp only [listWithLimit]
    split
    · exact List.pairwise_map.mpr (sorted_sortByTsDesc st.reviews)
    · exact List.pairwise_map.mpr
        (List.Pairwise.sublist (List.take_sublist _ _)
          (sorted_sortByTsDesc st.reviews))
  · intro lim st h0
    simp only [listWithLimit]
    rw [if_neg (not_lt.mpr h0)]
    simp [List.length_take, length_sortByTsDesc]
  · intro st hne
    rcases hsort : sortByTsDesc st.reviews with _ | ⟨r, rest⟩
    · exfalso
      have hlen := length_sortByTsDesc st.reviews
      rw [hsort] at hlen
      exact hne (List.length_eq_zero.mp hlen.symm)
    · have hmem : r ∈ st.reviews := by
        rw [← mem_sortByTsDesc (l := st.reviews), hsort]
        exact List.mem_cons_self r rest
      refine ⟨r, hmem, ?_, ?_⟩
      · simp only [listWithLimit]
        rw [if_neg (by decide : ¬ (1 : Int) < 0), hsort]
        rfl
      · intro r2 h2
        have h2s : r2 ∈ sortByTsDesc st.reviews := mem_sortByTsDesc.mpr h2
        rw [hsort] at h2s
        rcases List.mem_cons.mp h2s with rfl | h2s
        · exact le_refl _
        · have hp := sorted_sortByTsDesc st.reviews
          rw [hsort] at hp
          exact (List.pairwise_cons.mp hp).1 r2 h2s

/-- Witness for C8 on a two-review store (ts 500 and 700): the full
listing is sorted, `limit=1` yields one entry, and it carries the
greatest timestamp 700. -/
theorem C8_listing_order_witness :
    List.Pairwise (fun e1 e2 : Entry => e2.ts ≤ e1.ts)
      (listWithLimit 5 ⟨[⟨1, "A", "a", 500, "m", "t"⟩,
        ⟨2, "B", "b", 700, "n", "u"⟩], [], 3⟩) ∧
    (listWithLimit 1 ⟨[⟨1, "A", "a", 500, "m", "t"⟩,
      ⟨2, "B", "b", 700, "n", "u"⟩], [], 3⟩).length =
      min (Int.toNat 1) ([⟨1, "A", "a", 500, "m", "t"⟩,
        ⟨2, "B", "b", 700, "n", "u"⟩] : List Review).length ∧
    (listWithLimit 1 ⟨[⟨1, "A", "a", 500, "m", "t"⟩,
      ⟨2, "B", "b", 700, "n", "u"⟩], [], 3⟩).length = 1 := by
  refine ⟨C8_listing_order.1 5 _, C8_listing_order.2.1 1 _ (by decide), ?_⟩
  obtain ⟨r, -, heq, -⟩ := C8_listing_order.2.2
    ⟨[⟨1, "A", "a", 500, "m", "t"⟩, ⟨2, "B", "b", 700, "n", "u"⟩], [], 3⟩
    (by decide)
  rw [heq]
  rfl

/-! ### Captcha single-use across request traces -/

/-- No captcha row with key `c` is present in the store. -/
def captchaAbsent (c : String) (st : Store) : Prop := findCaptcha c st = none

/-- Whether a request (re-)issues a captcha with key `c`; only
`GET /captcha` writes to the captcha table. -/
def issuesCid (op : Op) (c : String) : Bool :=
  match op with
  | .captchaOp cid _ _ _ => cid == c
  | _ => false

/-- Whether handling `op` in state `st` performs a successful captcha
verification of key `c`.  The only caller of `verify_captcha` is
`create_review`, on its no-prior-review path, mirrored here. -/
def opVerifiesCid (st : Store) (op : Op) (c : String) : Bool :=
  match op with
  | .createOp now p cookie m _ =>
    if pyStrip (orEmpty p.name) = "" then false
    else if pyStrip (orEmpty p.text) = "" ∧ p.text = none then false
    else
      match findLatestByClient (resolveClient cookie m) st with
      | some _ => false
      | none => p.captcha_id == some c &&
          (verify_captcha now p.captcha_id p.captcha_answer st).1
  | _ => false

/-- Number of successful verifications of key `c` along a trace. -/
def countVerifications (st : Store) (ops : List Op) (c : String) : Nat :=
  match ops with
  | [] => 0
  | op :: rest =>
    (if opVerifiesCid st op c then 1 else 0) +
      countVerifications (applyOp st op) rest c

theorem create_review_captchas (now : Nat) (p : Payload)
    (cookie : Option String) (m mt : String) (st : Store) :
    (create_review now p cookie m mt st).2.captchas = st.captchas ∨
    ∃ c2, (create_review now p cookie m mt st).2.captchas =
      (deleteCaptcha c2 st).captchas := by
  by_cases hn : pyStrip (orEmpty p.name) = ""
  · rw [create_review_eq_noname now cookie m mt st hn]
    exact Or.inl rfl
  · by_cases ht : pyStrip (orEmpty p.text) = "" ∧ p.text = none
    · rw [create_review_eq_notext now cookie m mt st hn ht.2]
      exact Or.inl rfl
    · rcases hrow : findLatestByClient (resolveClient cookie m) st with _ | row
      · rcases hver : (verify_captcha now p.captcha_id p.captcha_answer st).1
          with _ | _
        · rw [create_review_eq_fresh_fail now mt hn ht hrow hver]
          rcases verify_captcha_snd_cases now p.captcha_id p.captcha_answer st
            with hv | ⟨c2, -, hv⟩
          · rw [hv]
            exact Or.inl rfl
          · rw [hv]
            exact Or.inr ⟨c2, rfl⟩
        · rw [create_review_eq_fresh_ok now mt hn ht hrow hver]
          rcases verify_captcha_snd_cases now p.captcha_id p.captcha_answer st
            with hv | ⟨c2, -, hv⟩
          · exact Or.inl (by rw [insertReview, hv])
          · exact Or.inr ⟨c2, by rw [insertReview, hv]⟩
      · by_cases hdiff : row.name = pyStrip (orEmpty p.name)
        · rw [create_review_eq_same now mt hn ht hrow hdiff]
          exact Or.inl rfl
        · rw [create_review_eq_conflict now mt hn ht hrow hdiff]
          exact Or.inl rfl

theorem captchaAbsent_applyOp {c : String} {st : Store} (op : Op)
    (hni : issuesCid op c = false) (h : captchaAbsent c st) :
    captchaAbsent c (applyOp st op) ∧ opVerifiesCid st op c = false := by
  cases op with
  | captchaOp cid a b now =>
    refine ⟨?_, rfl⟩
    have hcid : ¬ cid = c := by simpa [issuesCid] using hni
    simp only [captchaAbsent, findCaptcha, applyOp, get_captcha] at h ⊢
    rw [List.find?_cons_of_neg _ (by simpa using hcid), List.find?_eq_none]
    intro x hx
    exact List.find?_eq_none.mp h x (List.mem_filter.mp hx).1
  | listOp lp => exact ⟨h, rfl⟩
  | deleteOp rid tok ck =>
    refine ⟨?_, rfl⟩
    rcases delete_review_state rid tok ck st with hd | hd <;>
      simp only [captchaAbsent, applyOp] <;> rw [hd] <;> exact h
  | createOp now p cookie m mt =>
    constructor
    · show findCaptcha c (create_review now p cookie m mt st).2 = none
      rcases create_review_captchas now p cookie m mt st with hcc | ⟨c2, hcc⟩
      · simp only [captchaAbsent, findCaptcha] at h ⊢
        rw [hcc]
        exact h
      · simp only [captchaAbsent, findCaptcha] at h ⊢
        rw [hcc]
        exact findCaptcha_deleteCaptcha_none c c2 st h
    · have hfalse : (p.captcha_id == some c &&
          (verify_captcha now p.captcha_id p.captcha_answer st).1) = false := by
        rcases hci : p.captcha_id with _ | c2
        · rfl
        · by_cases hc2 : c2 = c
          · subst hc2
            rw [verify_captcha_absent now c2 p.captcha_answer st h]
            simp
          · simp [hc2]
      simp only [opVerifiesCid]
      split
      · rfl
      · split
        · rfl
        · split
          · rfl
          · rename_i hrow
            rw [← hfalse]
      
theorem opVerifiesCid_true_absent {c : String} {st : Store} {op : Op}
    (h : opVerifiesCid st op c = true) : captchaAbsent c (applyOp st op) := by
  cases op with
  | captchaOp cid a b now => simp [opVerifiesCid] at h
  | listOp lp => simp [opVerifiesCid] at h
  | deleteOp rid tok ck => simp [opVerifiesCid] at h
  | createOp now p cookie m mt =>
    simp only [opVerifiesCid] at h
    by_cases hn : pyStrip (orEmpty p.name) = ""
    · rw [if_pos hn] at h
      exact absurd h (by simp)
    · rw [if_neg hn] at h
      by_cases ht : pyStrip (orEmpty p.text) = "" ∧ p.text = none
      · rw [if_pos ht] at h
        exact absurd h (by simp)
      · rw [if_neg ht] at h
        rcases hrow : findLatestByClient (resolveClient cookie m) st with _ | row
        · rw [hrow] at h
          rw [Bool.and_eq_true] at h
          obtain ⟨hci, hver⟩ := h
          obtain ⟨c2, hc2, -, habs⟩ := verify_captcha_true_elim hver
          have hci2 : p.captcha_id = some c := by
            rcases hci3 : p.captcha_id with _ | c3
            · rw [hci3] at hci
              exact absurd hci (by simp)
            · rw [hci3] at hci
              simpa using congrArg (fun s => some s) (by simpa using hci)
          have heq := create_review_eq_fresh_ok now mt hn ht hrow hver
          show findCaptcha c (create_review now p cookie m mt st).2 = none
          rw [heq]
          rw [hci2] at hc2
          obtain rfl : c = c2 := by injection hc2
          simpa [findCaptcha, insertReview] using habs
        · rw [hrow] at h
          exact absurd h (by simp)

theorem countVerifications_absent {c : String} {st : Store} {ops : List Op}
    (h : captchaAbsent c st) (hni : ∀ op ∈ ops, issuesCid op c = false) :
    countVerifications st ops c = 0 := by
  induction ops generalizing st with
  | nil => rfl
  | cons op rest ih =>
    have hstep := captchaAbsent_applyOp op (hni op (List.mem_cons_self op rest)) h
    simp [countVerifications, hstep.2,
      ih hstep.1 (fun o ho => hni o (List.mem_cons_of_mem op ho))]

theorem countVerifications_le_one (c : String) :
    ∀ (ops : List Op) (st : Store),
      (∀ op ∈ ops, issuesCid op c = false) →
      countVerifications st ops c ≤ 1 := by
  intro ops
  induction ops with
  | nil => intro st _; exact Nat.zero_le 1
  | cons op rest ih =>
    intro st hni
    rcases hv : opVerifiesCid st op c with _ | _
    · simp only [countVerifications, hv, Bool.false_eq_true, if_false,
        Nat.zero_add]
      exact ih (applyOp st op) (fun o ho => hni o (List.mem_cons_of_mem op ho))
    · have habs := opVerifiesCid_true_absent hv
      have hzero := countVerifications_absent habs
        (fun o ho => hni o (List.mem_cons_of_mem op ho))
      simp [countVerifications, hv, hzero]

/-- Claim C2: a successful verification deletes the captcha record as part
of succeeding, and along any request trace that never re-issues the same
`cid` (fresh random cids), at most one verification of that `cid` ever
succeeds — any later attempt, even with the correct answer within the
TTL, fails. -/
theorem C2_captcha_single_use :
    (∀ (now : Nat) (ci a : Option String) (st : Store) (c : String),
      ci = some c → (verify_captcha now ci a st).1 = true →
      findCaptcha c (verify_captcha now ci a st).2 = none) ∧
    (∀ (st : Store) (c : String) (ops : List Op),
      (∀ op ∈ ops, issuesCid op c = false) →
      countVerifications st ops c ≤ 1) := by
  constructor
  · intro now ci a st c hci hver
    obtain ⟨c2, hc2, -, habs⟩ := verify_captcha_true_elim hver
    rw [hci] at hc2
    obtain rfl : c = c2 := by injection hc2
    exact habs
  · intro st c ops hni
    exact countVerifications_le_one c ops st hni

/-- Witness for C2: on the sample captcha store, a correct verification
consumes the record, and a trace with two posts both trying captcha `c`
yields at most one success. -/
theorem C2_captcha_single_use_witness :
    findCaptcha "c"
      (verify_captcha 600 (some "c") (some "7") sampleCaptchaStore).2 =
      none ∧
    countVerifications sampleCaptchaStore
      [.createOp 100 ⟨some "Al", some "x", some "c", some "7"⟩ none "m" "t1",
       .createOp 200 ⟨some "Bo", some "y", some "c", some "7"⟩ none "q" "t2"]
      "c" ≤ 1 := by
  refine ⟨C2_captcha_single_use.1 600 (some "c") (some "7")
      sampleCaptchaStore "c" rfl (by decide),
    C2_captcha_single_use.2 sampleCaptchaStore "c"
      [.createOp 100 ⟨some "Al", some "x", some "c", some "7"⟩ none "m" "t1",
       .createOp 200 ⟨some "Bo", some "y", some "c", some "7"⟩ none "q" "t2"]
      (by decide)⟩

/-! ### Review persistence across request traces -/

/-- Well-formedness of the AUTOINCREMENT id column: every stored id is
below the counter and ids are pairwise distinct. -/
def StoreInv (st : Store) : Prop :=
  (∀ r ∈ st.reviews, r.id < st.next_id) ∧
  st.reviews.Pairwise (fun a b => a.id ≠ b.id)

theorem storeInv_applyOp {st : Store} (op : Op) (h : StoreInv st) :
    StoreInv (applyOp st op) := by
  obtain ⟨hlt, hnd⟩ := h
  cases op with
  | captchaOp cid a b now => exact ⟨hlt, hnd⟩
  | listOp lp => exact ⟨hlt, hnd⟩
  | deleteOp rid tok ck =>
    rcases delete_review_state rid tok ck st with hd | hd <;>
      constructor <;> simp only [applyOp] <;> rw [hd]
    · exact hlt
    · exact hnd
    · intro r hr
      exact hlt r (List.mem_filter.mp hr).1
    · exact List.Pairwise.sublist (List.filter_sublist _) hnd
  | createOp now p cookie m mt =>
    rcases create_review_state_cases now p cookie m mt st with
      ⟨hr, hn⟩ | ⟨nm, tx, hr, hn, -⟩
    · constructor
      · intro r hrr
        simp only [applyOp] at hrr ⊢
        rw [hr] at hrr
        exact lt_of_lt_of_le (hlt r hrr) hn
      · simp only [applyOp]
        rw [hr]
        exact hnd
    · constructor
      · intro r hrr
        simp only [applyOp] at hrr ⊢
        rw [hr] at hrr
        rw [hn]
        rcases List.mem_append.mp hrr with hrr | hrr
        · exact Nat.lt_succ_of_lt (hlt r hrr)
        · have hre : r = ⟨st.next_id, nm, tx, now, resolveClient cookie m, mt⟩ := by
            simpa using hrr
          rw [hre]
          exact Nat.lt_succ_self _
      · simp only [applyOp]
        rw [hr, List.pairwise_append]
        refine ⟨hnd, List.pairwise_singleton _ _, ?_⟩
        intro r1 h1 r2 h2
        have hr2 : r2 = ⟨st.next_id, nm, tx, now, resolveClient cookie m, mt⟩ := by
          simpa using h2
        rw [hr2]
        exact Nat.ne_of_lt (hlt r1 h1)

theorem storeInv_runTrace {st : Store} (ops : List Op) (h : StoreInv st) :
    StoreInv (runTrace st ops) := by
  induction ops generalizing st with
  | nil => exact h
  | cons op rest ih => exact ih (storeInv_applyOp op h)

theorem review_persist_applyOp {st : Store} {rv : Review} (op : Op)
    (h : (rv ∈ st.reviews ∨ ∀ r ∈ st.reviews, r.id ≠ rv.id) ∧
      rv.id < st.next_id) :
    (rv ∈ (applyOp st op).reviews ∨
      ∀ r ∈ (applyOp st op).reviews, r.id ≠ rv.id) ∧
      rv.id < (applyOp st op).next_id := by
  obtain ⟨hmem, hid⟩ := h
  cases op with
  | captchaOp cid a b now => exact ⟨hmem, hid⟩
  | listOp lp => exact ⟨hmem, hid⟩
  | deleteOp rid tok ck =>
    rcases delete_review_state rid tok ck st with hd | hd <;>
      constructor <;> simp only [applyOp] <;> rw [hd]
    · exact hmem
    · exact hid
    · rcases hmem with hmem | habs
      · by_cases hrid : rv.id = rid
        · right
          intro r hr hcon
          have hne := (List.mem_filter.mp hr).2
          rw [hcon, hrid] at hne
          simp at hne
        · left
          exact List.mem_filter.mpr ⟨hmem, by simpa using hrid⟩
      · right
        intro r hr
        exact habs r (List.mem_filter.mp hr).1
    · exact hid
  | createOp now p cookie m mt =>
    rcases create_review_state_cases now p cookie m mt st with
      ⟨hr, hn⟩ | ⟨nm, tx, hr, hn, -⟩
    · constructor <;> simp only [applyOp]
      · rw [hr]
        exact hmem
      · exact lt_of_lt_of_le hid hn
    · constructor <;> simp only [applyOp]
      · rw [hr]
        rcases hmem with hmem | habs
        · exact Or.inl (List.mem_append.mpr (Or.inl hmem))
        · right
          intro r hrr
          rcases List.mem_append.mp hrr with hrr | hrr
          · exact habs r hrr
          · have hre : r = ⟨st.next_id, nm, tx, now, resolveClient cookie m, mt⟩ := by
              simpa using hrr
            rw [hre]
            exact Nat.ne_of_gt hid
      · rw [hn]
        exact Nat.lt_succ_of_lt hid

theorem review_persist_runTrace {st : Store} {rv : Review} (ops : List Op)
    (h : (rv ∈ st.reviews ∨ ∀ r ∈ st.reviews, r.id ≠ rv.id) ∧
      rv.id < st.next_id) :
    (rv ∈ (runTrace st ops).reviews ∨
      ∀ r ∈ (runTrace st ops).reviews, r.id ≠ rv.id) ∧
      rv.id < (runTrace st ops).next_id := by
  induction ops generalizing st with
  | nil => exact h
  | cons op rest ih => exact ih (review_persist_applyOp op h)

/-- Claim C9: the `{id,name,text,ts}` fields returned at creation are
exactly the fields any later listing returns for that review, as long as
a review with that id is still stored; and every listing entry is the
`{id,name,text,ts}` projection of a stored row, so `client_id` and
`delete_token` never appear in listings. -/
theorem C9_roundtrip :
    (∀ (now : Nat) (p : Payload) (cookie : Option String) (m mt : String)
        (st : Store) (i : Nat) (tok nm tx : String) (ts1 : Nat) (st1 : Store)
        (ops : List Op) (r2 : Review),
      StoreInv st →
      create_review now p cookie m mt st = (.created i tok nm tx ts1, st1) →
      r2 ∈ (runTrace st1 ops).reviews → r2.id = i →
      r2.name = nm ∧ r2.text = tx ∧ r2.ts = ts1 ∧
      (⟨i, nm, tx, ts1⟩ : Entry) ∈ listWithLimit (-1) (runTrace st1 ops)) ∧
    (∀ (st : Store) (lim : Int) (e : Entry), e ∈ listWithLimit lim st →
      ∃ r ∈ st.reviews, e = ⟨r.id, r.name, r.text, r.ts⟩) := by
  constructor
  · intro now p cookie m mt st i tok nm tx ts1 st1 ops r2 hinv hcr hmem hid
    obtain ⟨hi, htok, -, -, hts, -, hrev, hnext⟩ := create_review_created hcr
    have hrvmem : (⟨st.next_id, nm, tx, now, resolveClient cookie m, mt⟩ :
        Review) ∈ st1.reviews := by
      rw [hrev]
      exact List.mem_append.mpr (Or.inr (List.mem_singleton.mpr rfl))
    have hrvid : (⟨st.next_id, nm, tx, now, resolveClient cookie m, mt⟩ :
        Review).id < st1.next_id := by
      rw [hnext]
      exact Nat.lt_succ_self _
    have hpers := review_persist_runTrace ops (And.intro (Or.inl hrvmem) hrvid)
    have hrv2 : (⟨st.next_id, nm, tx, now, resolveClient cookie m, mt⟩ :
        Review) ∈ (runTrace st1 ops).reviews := by
      rcases hpers.1 with hin | habs
      · exact hin
      · exact absurd (hid.trans hi) (habs r2 hmem)
    have hinv1 : StoreInv st1 := by
      have hpre := storeInv_applyOp (.createOp now p cookie m mt) hinv
      have h2 : applyOp st (.createOp now p cookie m mt) = st1 := by
        show (create_review now p cookie m mt st).2 = st1
        rw [hcr]
      rwa [h2] at hpre
    have hinv2 := storeInv_runTrace ops hinv1
    have heqr : r2 = ⟨st.next_id, nm, tx, now, resolveClient cookie m, mt⟩ := by
      by_contra hne
      have hsym : Symmetric (fun a b : Review => a.id ≠ b.id) :=
        fun a b hab => Ne.symm hab
      exact (hinv2.2.forall hsym) hmem hrv2 hne (hid.trans hi)
    subst heqr
    refine ⟨rfl, rfl, hts.symm, ?_⟩
    simp only [listWithLimit]
    rw [if_pos (by decide : (-1 : Int) < 0)]
    exact List.mem_map.mpr
      ⟨⟨st.next_id, nm, tx, now, resolveClient cookie m, mt⟩,
        mem_sortByTsDesc.mpr hrv2, by rw [hi, hts]⟩
  · intro st lim e he
    simp only [listWithLimit] at he
    split at he
    · obtain ⟨r, hr, hfr⟩ := List.mem_map.mp he
      exact ⟨r, mem_sortByTsDesc.mp hr, hfr.symm⟩
    · obtain ⟨r, hr, hfr⟩ := List.mem_map.mp he
      exact ⟨r, mem_sortByTsDesc.mp (List.take_subset _ _ hr), hfr.symm⟩

/-- Witness for C9: a review created from the sample captcha store keeps
its created fields through a trace (a fresh captcha issue and a
no-op delete) and appears in the listing; and a listed entry of a
two-review store is the projection of a stored row (so its timestamp is
one of the stored timestamps). -/
theorem C9_roundtrip_witness :
    ((⟨1, "Al", "hi", 100, "m", "tok"⟩ : Review).name = "Al" ∧
      (⟨1, "Al", "hi", 100, "m", "tok"⟩ : Review).text = "hi" ∧
      (⟨1, "Al", "hi", 100, "m", "tok"⟩ : Review).ts = 100 ∧
      (⟨1, "Al", "hi", 100⟩ : Entry) ∈
        listWithLimit (-1)
          (runTrace ⟨[⟨1, "Al", "hi", 100, "m", "tok"⟩], [], 2⟩
            [.captchaOp "d" 2 3 150, .deleteOp 5 none none])) ∧
    ((⟨2, "B", "b", 700⟩ : Entry).ts = 500 ∨
      (⟨2, "B", "b", 700⟩ : Entry).ts = 700) := by
  constructor
  · exact C9_roundtrip.1 100 ⟨some "Al", some "hi", some "c", some "7"⟩ none
      "m" "tok" sampleCaptchaStore 1 "tok" "Al" "hi" 100
      ⟨[⟨1, "Al", "hi", 100, "m", "tok"⟩], [], 2⟩
      [.captchaOp "d" 2 3 150, .deleteOp 5 none none]
      ⟨1, "Al", "hi", 100, "m", "tok"⟩
      ⟨fun r hr => absurd hr (List.not_mem_nil r), List.Pairwise.nil⟩
      (by decide) (by decide) rfl
  · obtain ⟨r, hr, he⟩ := C9_roundtrip.2
      ⟨[⟨1, "A", "a", 500, "m", "t"⟩, ⟨2, "B", "b", 700, "n", "u"⟩], [], 3⟩ 1
      ⟨2, "B", "b", 700⟩ (by decide)
    rcases List.mem_cons.mp hr with hr1 | hr2
    · exact absurd (he.trans (by rw [hr1])) (by decide)
    · rcases List.mem_cons.mp hr2 with hr1 | hr3
      · exact Or.inr (by rw [he, hr1])
      · exact absurd hr3 (List.not_mem_nil r)

end Reviews
